import Mathlib

/-!
# Verification of the gameworldgr content-to-forum-post pipeline

Shallow embedding of `src/index.ts` (the watermark-file variant of the
processing job, lines 375-828 of the packed source), `src/utils.ts` and
`src/database.ts` (`queryDatabase`).

Modelling conventions:
* Timestamps (`created` column values, the instants denoted by the
  watermark file) are `Nat` instants; the external `formatDate`
  (date-fns-tz, Europe/Athens `yyyy-MM-dd HH:mm:ss`) is an abstract
  environment function `Nat → String`, and the SQL comparison
  `created > ?` compares the instants.
* The external collaborators (cheerio HTML parsing/serialization, the
  html2bbcode converter) are environment function parameters; everything
  the repository's own code does to their outputs is embedded.
* The module-level regex `UPDATE_REGEX = /\[UPDATE(?:\s*\d*)?(?::\s*(.+?))?\]/gi`
  has the `g` flag, so `RegExp.test` starts scanning at the retained
  `lastIndex` and resets it to 0 on failure (or sets it to the match end
  on success).  The matcher below reproduces this: `reTest li s` is
  `UPDATE_REGEX.test(s)` with `lastIndex = li`, returning the result and
  the new `lastIndex`.
* MySQL's `affectedRows` for the writer's UPDATE statements is modelled
  as the number of rows matched by the WHERE clause (every update in the
  writer sets a fresh message/activity id, so matched rows are changed
  rows).
-/

namespace GW

/-! ## Character classes and generic string helpers -/

/-- JavaScript regex `\s` (the whitespace characters relevant here). -/
def isWsC (c : Char) : Bool :=
  c = ' ' || c = '\t' || c = '\n' || c = '\r' || c = '\x0b' || c = '\x0c'

/-- JavaScript regex `\d`. -/
def isDigC (c : Char) : Bool := '0' ≤ c && c ≤ '9'

/-- JavaScript regex `.` (anything but a line terminator). -/
def isDotC (c : Char) : Bool := !(c = '\n' || c = '\r')

/-- Case-insensitive character comparison (the regex `i` flag). -/
def lcEq (a b : Char) : Bool := a.toLower = b.toLower

/-- Consume an exact (case-sensitive) pattern, returning the rest. -/
def stripPrefEx : List Char → List Char → Option (List Char)
  | [], l => some l
  | _, [] => none
  | p :: ps, c :: cs => if p = c then stripPrefEx ps cs else none

/-- Consume a case-insensitive pattern, returning the rest. -/
def stripPrefCI : List Char → List Char → Option (List Char)
  | [], l => some l
  | _, [] => none
  | p :: ps, c :: cs => if lcEq p c then stripPrefCI ps cs else none

/-- Does `pat` occur at the head of `l` (case-sensitive)? -/
def prefEq (pat l : List Char) : Bool := (stripPrefEx pat l).isSome

/-- Does `pat` occur at the head of `l` (case-insensitive)? -/
def prefEqCI (pat l : List Char) : Bool := (stripPrefCI pat l).isSome

/-- Substring containment on characters, case-sensitive
(JavaScript `String.prototype.includes`). -/
def containsChars (pat : List Char) : List Char → Bool
  | [] => prefEq pat []
  | l@(_ :: rest) => prefEq pat l || containsChars pat rest

/-- Model of `s.includes(pat)` (case-sensitive). -/
def containsStr (s pat : String) : Bool := containsChars pat.data s.data

/-- Substring containment, case-insensitive
(MySQL `LIKE '%pat%'` under the default case-insensitive collation). -/
def containsCharsCI (pat : List Char) : List Char → Bool
  | [] => prefEqCI pat []
  | l@(_ :: rest) => prefEqCI pat l || containsCharsCI pat rest

/-- SQL `s LIKE '%pat%'`. -/
def likeContains (s pat : String) : Bool := containsCharsCI pat.data s.data

/-- String reversal (`s.split("").reverse().join("")`). -/
def strRev (s : String) : String := String.mk s.data.reverse

/-- JavaScript `String.prototype.trim`. -/
def jsTrim (s : String) : String :=
  String.mk (((s.data.dropWhile isWsC).reverse.dropWhile isWsC).reverse)

/-- JavaScript `s.substring(0, n)`. -/
def strTake (s : String) (n : Nat) : String := String.mk (s.data.take n)

/-- JavaScript `s.split("\n")` on characters. -/
def splitNl : List Char → List (List Char)
  | [] => [[]]
  | '\n' :: rest => [] :: splitNl rest
  | c :: rest =>
    match splitNl rest with
    | [] => [[c]]
    | h :: t => (c :: h) :: t

/-- JavaScript `parts.join(sep)`. -/
def joinWith (sep : String) : List String → String
  | [] => ""
  | [a] => a
  | a :: rest => a ++ sep ++ joinWith sep rest

/-! ## The `UPDATE_REGEX` matcher

`/\[UPDATE(?:\s*\d*)?(?::\s*(.+?))?\]/gi` — a bracketed literal `UPDATE`
(case-insensitive), optional whitespace and digits, an optional
`: free text` part (lazy), then `]`.  We implement the backtracking
search of the JavaScript engine specialized to this fixed pattern. -/

/-- The lazy `.+?\]` tail: consume at least one non-line-terminator
character, stopping at the first following `]`; returns the remainder
after that `]`. -/
def lazyDotBr : List Char → Option (List Char)
  | [] => none
  | c :: rest =>
    if !isDotC c then none
    else
      match rest with
      | ']' :: r2 => some r2
      | _ => lazyDotBr rest

/-- The `(?::\s*(.+?))?` alternative taken with its contents: a literal
`:`, greedy `\s*` (with backtracking), then the lazy free text and `]`. -/
def tryColon (l2 : List Char) : Option (List Char) :=
  match l2 with
  | ':' :: l3 =>
    let W := (l3.takeWhile isWsC).length
    ((List.range (W + 1)).map (fun k => W - k)).findSome?
      (fun w => lazyDotBr (l3.drop w))
  | _ => none

/-- The closing `]` when the colon group matches empty. -/
def tryClose (l2 : List Char) : Option (List Char) :=
  match l2 with
  | ']' :: r => some r
  | _ => none

/-- After the literal `[UPDATE`: try the `(?:\s*\d*)?` consumptions in
the engine's backtracking priority order (maximal whitespace+digits
first), then for each the colon group and finally the bare `]`. -/
def updTail (l1 : List Char) : Option (List Char) :=
  let A := (l1.takeWhile isWsC).length
  let B := ((l1.drop A).takeWhile isDigC).length
  let cands :=
    ((List.range (B + 1)).map (fun k => A + (B - k))) ++
      ((List.range A).map (fun k => A - 1 - k))
  cands.findSome? (fun n =>
    let l2 := l1.drop n
    match tryColon l2 with
    | some r => some r
    | none => tryClose l2)

/-- A match of `UPDATE_REGEX` starting at the head of `l`: returns the
remainder after the match. -/
def updMatchSuffix (l : List Char) : Option (List Char) :=
  match stripPrefCI "[update".data l with
  | none => none
  | some l1 => updTail l1

/-- Leftmost match at a position `≥ i`; returns (start, end) indices. -/
def updFirstMatchAux : Nat → List Char → Nat → Option (Nat × Nat)
  | _, [], _ => none
  | 0, _, _ => none
  | f + 1, l@(_ :: rest), i =>
    match updMatchSuffix l with
    | some r => some (i, i + (l.length - r.length))
    | none => updFirstMatchAux f rest (i + 1)

/-- Model of `UPDATE_REGEX` search in `cs` from position `start`. -/
def updFirstMatch (cs : List Char) (start : Nat) : Option (Nat × Nat) :=
  updFirstMatchAux (cs.length + 1) (cs.drop start) start

/-- Model of `UPDATE_REGEX.test(s)` with the retained `lastIndex = li`: returns the
boolean and the new `lastIndex` (the match end on success, 0 on
failure). -/
def reTest (li : Nat) (s : String) : Bool × Nat :=
  match updFirstMatch s.data li with
  | some (_, e) => (true, e)
  | none => (false, 0)

/-- Model of `s.match(UPDATE_REGEX)?.[0]` — with a global regex, `String.match`
resets `lastIndex` and returns all matches; `[0]` is the first. -/
def firstUpdMatchStr (s : String) : Option String :=
  (updFirstMatch s.data 0).map
    (fun p => String.mk ((s.data.drop p.1).take (p.2 - p.1)))

/-- A stateless test of the update-marker pattern (what the spec's pure
"matches the update marker pattern" means). -/
def pureHasUpd (s : String) : Bool := (updFirstMatch s.data 0).isSome

/-! ## Title extraction (lines 688-701 and 735-736) -/

/-- The delimiter set of the reverse scan. -/
def titleDelims : List Char := ['-', ':', '[', '—', '–']

/-- The `for (const char of reversedTitle)` loop body: stop at a
delimiter, skip `]`, otherwise append. -/
def titleScan : List Char → List Char
  | [] => []
  | c :: rest =>
    if titleDelims.contains c then []
    else if c = ']' then titleScan rest
    else c :: titleScan rest

/-- Model of `strippedTitle` computed from a matched marker text. -/
def strippedTitleOf (u : String) : String := String.mk (titleScan u.data.reverse)

/-- The stripped title of a fragment text: empty when the fragment's text
has no `UPDATE_REGEX` match. -/
def strippedOfFrag (fragText : String) : String :=
  match firstUpdMatchStr fragText with
  | none => ""
  | some m => strippedTitleOf m

/-- Model of `strippedTitle.split("").reverse().join("")` — the extracted title
candidate in reading order. -/
def titleCandidate (fragText : String) : String := strRev (strippedOfFrag fragText)

/-- Model of `finalTitle = candidate || nextPost.title.trim()` (JS `||` falls back
on the empty string). -/
def finalTitleOf (fragText itemTitle : String) : String :=
  let c := titleCandidate fragText
  if c = "" then jsTrim itemTitle else c

/-! ## Thread-target URL extraction (lines 707-714)

`/forum\/(\d+)\/(\d+)/g` with `matchAll` and `.pop()`: all
non-overlapping matches, last one wins. -/

/-- Digit characters to their numeric value. -/
def digitsVal (l : List Char) : Nat := l.foldl (fun a c => a * 10 + (c.toNat - 48)) 0

/-- A match of `forum\/(\d+)\/(\d+)` at the head of `l`: category id,
thread id and the remainder after the match. -/
def forumMatchAt (l : List Char) : Option ((Nat × Nat) × List Char) :=
  match stripPrefEx "forum/".data l with
  | none => none
  | some r1 =>
    let d1 := r1.takeWhile isDigC
    if d1.isEmpty then none
    else
      match stripPrefEx "/".data (r1.drop d1.length) with
      | none => none
      | some r2 =>
        let d2 := r2.takeWhile isDigC
        if d2.isEmpty then none
        else some ((digitsVal d1, digitsVal d2), r2.drop d2.length)

/-- All matches, left to right, non-overlapping (`matchAll`). -/
def forumScanAux : Nat → List Char → List (Nat × Nat)
  | 0, _ => []
  | _, [] => []
  | f + 1, l@(_ :: rest) =>
    match forumMatchAt l with
    | some (p, r) => p :: forumScanAux f r
    | none => forumScanAux f rest

/-- Model of `Array.from(s.matchAll(urlRegex))` as category/thread pairs. -/
def forumScan (s : String) : List (Nat × Nat) := forumScanAux s.data.length s.data

/-- Model of `Array.from(s.matchAll(urlRegex)).pop()` — the last match. -/
def forumLastMatch (s : String) : Option (Nat × Nat) := (forumScan s).getLast?

/-! ## DOM fragments and the unroll / segment computation

Cheerio's element tree is modelled as `Node`; `$(el).text()` concatenates
descendant text, `.children()` yields element children only. -/

inductive Node where
  | el : String → List Node → Node
  | tx : String → Node

mutual

/-- Model of `$(element).text()`. -/
def textOfN : Node → String
  | .tx s => s
  | .el _ ks => textOfL ks

/-- Text of a node list, in order. -/
def textOfL : List Node → String
  | [] => ""
  | n :: ns => textOfN n ++ textOfL ns

end

/-- Model of `element.tagName`. -/
def tagOf : Node → String
  | .el n _ => n
  | .tx _ => ""

mutual

/-- Model of `unrollElements` (lines 811-828): `UPDATE_REGEX.test` is always
evaluated (threading the retained `lastIndex`); non-`div` elements and
elements without a marker are kept opaque, matched `div`s are replaced by
their unrolled element children. -/
def unrollN (n : Node) (li : Nat) : List Node × Nat :=
  let r := reTest li (textOfN n)
  if tagOf n ≠ "div" || !r.1 then ([n], r.2)
  else
    match n with
    | .tx _ => ([n], r.2)
    | .el _ ks => unrollL ks r.2

/-- Model of `elements.map((el) => unrollElements(el, $)).flat()` over element
children (cheerio `.children()` skips text nodes). -/
def unrollL : List Node → Nat → List Node × Nat
  | [], li => ([], li)
  | .tx _ :: rest, li => unrollL rest li
  | n :: rest, li =>
    let a := unrollN n li
    let b := unrollL rest a.2
    (a.1 ++ b.1, b.2)

end

/-- The `findIndex` over the reversed texts (lines 670-673), threading the
shared regex's `lastIndex`; returns the reverse index and final state. -/
def findRevIdx : List String → Nat → Nat → Option Nat × Nat
  | [], _, li => (none, li)
  | t :: ts, k, li =>
    let r := reTest li t
    if r.1 then (some k, r.2) else findRevIdx ts (k + 1) r.2

/-- Lines 665-684: unroll the top-level fragments, then select
`updateElements` — the whole list when the reverse `findIndex` finds no
marker, otherwise the suffix `slice(length - idx - 1)`. -/
def codeSegment (ns : List Node) : List Node :=
  let u := unrollL ns 0
  let unrolled := u.1
  let revTexts := unrolled.reverse.map textOfN
  match (findRevIdx revTexts 0 u.2).1 with
  | none => unrolled
  | some k => unrolled.drop (unrolled.length - k - 1)

mutual

/-- Modelled from the spec: step 2 of §4.1 with a pure (stateless) match
function, as the spec's design note 9 prescribes — for comparison with
`codeSegment`'s use of the shared mutable-state regex. -/
def specUnrollN : Node → List Node
  | .tx s => [.tx s]
  | .el nm ks =>
    if nm ≠ "div" || !pureHasUpd (textOfL ks) then [.el nm ks]
    else specUnrollL ks

/-- Modelled from the spec: unrolling of a fragment list, pure matching. -/
def specUnrollL : List Node → List Node
  | [] => []
  | .tx _ :: rest => specUnrollL rest
  | n :: rest => specUnrollN n ++ specUnrollL rest

end

/-- Modelled from the spec: step 3 of §4.1 — scan the unrolled list from
the end; no marker ⇒ entire list, otherwise the suffix starting at the
last-occurring matching fragment. -/
def specSegment (ns : List Node) : List Node :=
  let unrolled := specUnrollL ns
  match unrolled.reverse.findIdx? (fun n => pureHasUpd (textOfN n)) with
  | none => unrolled
  | some k => unrolled.drop (unrolled.length - k - 1)

/-! ## The forum-topic boundary filter (lines 734-757) -/

/-- The `.filter((el, index) => ...)` with the `foundForumTopic` flag:
once the flag is set everything is dropped; at the last or second-to-last
index the flag is set and the element is kept only if `p` (the
"`$(el).text()` contains `"forum topic"`" check) fails; earlier elements
are kept.  `n` is `updateElements.length`; the index comparisons
`i + 1 = n` / `i + 2 = n` are JavaScript's `index === n - 1` /
`index === n - 2` over integers. -/
def bfAux (p : String → Bool) (n : Nat) : Nat → Bool → List String → List String
  | _, _, [] => []
  | i, flag, a :: rest =>
    if flag then bfAux p n (i + 1) flag rest
    else if i + 1 = n ∨ i + 2 = n then
      (if p a then [] else [a]) ++ bfAux p n (i + 1) true rest
    else a :: bfAux p n (i + 1) false rest

/-- The boundary filter applied to the whole candidate list. -/
def boundaryFilter (p : String → Bool) (l : List String) : List String :=
  bfAux p l.length 0 false l

/-! ## Markup stripping (lines 739-741 and 532-533) -/

/-- After `[UPDATE` (case-sensitive), the greedy `.*\][ ]*` tail: consume
up to the last `]` on the line, then trailing spaces; `none` when no `]`
follows on the line. -/
def updTagTail (l : List Char) : Option (List Char) :=
  let line := l.takeWhile (fun c => !(c = '\n' || c = '\r'))
  match (line.reverse.dropWhile (fun c => c ≠ ']')) with
  | [] => none
  | _ :: revRest =>
    -- characters after the last ']' of the line, then the rest of `l`
    let consumed := revRest.length + 1
    some ((l.drop consumed).dropWhile (fun c => c = ' '))

/-- A match of `/\[UPDATE.*\][ ]*/` at the head of `l` (case-sensitive):
remainder after the match. -/
def updTagAt (l : List Char) : Option (List Char) :=
  match stripPrefEx "[UPDATE".data l with
  | none => none
  | some rest7 =>
    match updTagTail rest7 with
    | none => none
    | some r => some r

/-- Global replacement `\[UPDATE.*\][ ]*` → `""` (line 740). -/
def replUpd : Nat → List Char → List Char
  | 0, l => l
  | _ + 1, [] => []
  | f + 1, l@(c :: rest) =>
    match updTagAt l with
    | some r => replUpd f r
    | none => c :: replUpd f rest

/-- Model of `html.replace(/\[UPDATE.*\][ ]*/g, "")`. -/
def stripUpdTags (s : String) : String := String.mk (replUpd s.data.length s.data)

/-- After a `[`, the lazy `.*?\]`: skip to the first `]` on the line,
returning the remainder; `none` when the bracket never closes on the
line. -/
def seekBrk : List Char → Option (List Char)
  | [] => none
  | ']' :: r => some r
  | '\n' :: _ => none
  | '\r' :: _ => none
  | _ :: r => seekBrk r

/-- Global replacement `\[.*?\]` → `""` (line 532, the BBCode-stripping
preview). -/
def replBrk : Nat → List Char → List Char
  | 0, l => l
  | _ + 1, [] => []
  | f + 1, '[' :: rest =>
    (match seekBrk rest with
     | some r => replBrk f r
     | none => '[' :: replBrk f rest)
  | f + 1, c :: rest => c :: replBrk f rest

/-- Model of `message.replace(/\[.*?\]/g, "")`. -/
def stripBrackets (s : String) : String := String.mk (replBrk s.data.length s.data)

/-! ## Post composition (lines 766-774) -/

/-- The BBCode body: convert each surviving fragment, join, split on
newlines, trim each line, drop empties, join with blank lines. -/
def composeBody (conv : String → String) (parts : List String) : String :=
  joinWith "\n\n"
    (((splitNl ((parts.map conv).foldl (· ++ ·) "").data).map
        (fun l => jsTrim (String.mk l))).filter (fun l => l.length != 0))

/-- Model of `finalPost` (line 774). -/
def finalPostOf (title imageURL body : String) : String :=
  "[center][b]" ++ title ++ "[/b][/center]\n\n[img]" ++ imageURL ++ "[/img]\n\n" ++ body

/-! ## Database rows and states -/

/-- Model of `jos_content` rows (read-only): `created` is a `Nat` instant. -/
structure ContentItem where
  id : Nat
  title : String
  fulltext : String
  created : Nat
  deriving DecidableEq

/-- Model of `jos_jreviews_media` rows (read-only). -/
structure MediaRow where
  listing_id : Nat
  main_media : Nat
  rel_path : String
  filename : String
  file_extension : String

/-- Model of `jos_kunena_messages` rows. -/
structure MsgRow where
  id : Nat
  parent : Nat
  thread : Nat
  catid : Nat
  subject : String
  userid : Nat
  name : String
  time : Nat
  ip : String
  deriving DecidableEq

/-- Model of `jos_kunena_messages_text` rows. -/
structure TextRow where
  mesid : Nat
  message : String
  deriving DecidableEq

/-- Model of `jos_kunena_users` rows (the post counter). -/
structure UserRow where
  userid : Nat
  posts : Nat
  deriving DecidableEq

/-- Model of `jos_kunena_topics` rows. -/
structure TopicRow where
  category_id : Nat
  id : Nat
  subject : String
  first_post_id : Nat
  last_post_id : Nat
  last_post_time : Nat
  last_post_userid : Nat
  last_post_guest_name : String
  deriving DecidableEq

/-- Model of `jos_kunena_categories` rows (the updated columns). -/
structure CatRow where
  id : Nat
  last_post_id : Nat
  last_post_time : Nat
  deriving DecidableEq

/-- Model of `jos_community_activities` rows (the inserted columns). -/
structure ActRow where
  id : Nat
  actor : Nat
  target : Nat
  title : String
  content : String
  app : String
  verb : String
  cid : Nat
  created : Nat
  access : Nat
  points : Nat
  archived : Nat
  comment_id : Nat
  comment_type : String
  like_id : Nat
  like_type : String
  updated_at : Nat
  params : String
  location : String
  latitude : Nat
  longitude : Nat
  actors : String
  deriving DecidableEq

/-- The mutable tables, with the auto-increment counters. -/
structure DBState where
  messages : List MsgRow
  texts : List TextRow
  users : List UserRow
  topics : List TopicRow
  cats : List CatRow
  acts : List ActRow
  nextMsgId : Nat
  nextActId : Nat
  deriving DecidableEq

/-- Ghost history of the run, used only to state properties: the ids of
fetched content items, the sequence of watermark-file writes, and the ids
of committed messages. -/
structure RunLog where
  examined : List Nat
  wrote : List String
  posted : List Nat
  deriving DecidableEq

/-- Database plus watermark file plus ghost log. -/
structure SysState where
  db : DBState
  watermark : String
  log : RunLog
  deriving DecidableEq

/-- External collaborators and process configuration. -/
structure Env where
  contents : List ContentItem
  media : List MediaRow
  /-- cheerio: the root children of a parsed HTML string. -/
  parse : String → List Node
  /-- cheerio: `$.html(el)` serialization. -/
  serial : Node → String
  /-- html2bbcode: `converter.feed(el).toString()`. -/
  conv : String → String
  /-- Model of `formatDate` (date-fns-tz, Europe/Athens `yyyy-MM-dd HH:mm:ss`). -/
  fmtDate : Nat → String
  /-- whether the i-th statement of the Transactional Writer's unit
  raises a fault (`queryDatabase` catches it and returns `undefined`). -/
  wfault : Nat → Bool
  /-- whether the Duplicate Guard's SELECT faults (`queryDatabase`
  catches the error and returns `undefined`). -/
  gFault : Bool
  userId : Nat
  userName : String
  /-- Model of `Math.floor(Date.now() / 1000)`. -/
  now : Nat

/-! ## Read queries -/

/-- Model of `ORDER BY created ASC LIMIT 1` as a fold keeping the earliest row. -/
def pickMin (acc : Option ContentItem) (p : ContentItem) : Option ContentItem :=
  match acc with
  | none => some p
  | some q => if p.created < q.created then some p else some q

/-- Model of `getNextPost` (lines 424-438): the first row by ascending `created`
with `created > t` and `fulltext LIKE '%forum topic%'`, or nothing. -/
def getNextPost (contents : List ContentItem) (t : Nat) : Option ContentItem :=
  (contents.filter (fun p => t < p.created && likeContains p.fulltext "forum topic")).foldl
    pickMin none

/-- Model of `getSubjectAndParent` (lines 610-624): subject and first-post id of
the topic matching both ids. -/
def getSubjectAndParent (db : DBState) (cat thr : Nat) : Option (String × Nat) :=
  match (db.topics.filter (fun r => r.category_id == cat && r.id == thr)).head? with
  | none => none
  | some r => some (r.subject, r.first_post_id)

/-- Model of `getImage` (lines 626-638): the main-media row for the listing,
rendered as the photo URL. -/
def getImage (env : Env) (listingId : Nat) : Option String :=
  match (env.media.filter (fun m => m.listing_id == listingId && m.main_media == 1)).head? with
  | none => none
  | some m =>
    some ("https://gameworld.gr/media/reviews/photos/" ++ m.rel_path ++ m.filename
      ++ "." ++ m.file_extension)

/-! ## The Duplicate Guard (lines 799-809) -/

/-- The guard's SELECT: text rows joined to a message of this user with
exactly this message text (`LIMIT 1`); `none` models `queryDatabase`
having caught a fault and returned `undefined`. -/
def guardRows (env : Env) (db : DBState) (msg : String) : Option (List TextRow) :=
  if env.gFault then none
  else
    some ((db.texts.filter (fun t =>
      db.messages.any (fun m => m.id == t.mesid && m.userid == env.userId)
        && t.message == msg)).take 1)

/-- Model of `if (!res || res.length === 0) return false; return true;` — the
call-site decoding of the guard's result set. -/
def hasBeenPostedRes : Option (List TextRow) → Bool
  | none => false
  | some l => if l.length = 0 then false else true

/-- Model of `hasBeenPosted(connection, message)`. -/
def hasBeenPostedM (env : Env) (db : DBState) (msg : String) : Bool :=
  hasBeenPostedRes (guardRows env db msg)

/-! ## The Transactional Writer (lines 440-608) -/

/-- The writer's input record. -/
structure WriterData where
  parentId : Nat
  threadId : Nat
  categoryId : Nat
  subject : String
  message : String
  userId : Nat
  name : String
  created : Nat
  imageURL : String

/-- The synthesized activity-feed row of step 6 (lines 526-580): fixed
action identifiers, point value 1, zero target/access/archived flags,
comment linkage to the thread, like linkage initially 0, empty
parameters/location, sentinel geo-coordinates, and the templated
title/content built from the subject, image and a 300-character
bracket-stripped preview of the message. -/
def activityRow (env : Env) (d : WriterData) (messageId activityId : Nat) : ActRow :=
  let activityTitle :=
    "\x7bsingle\x7d\x7bactor\x7d\x7b/single\x7d\x7bmultiple\x7d\x7bactors\x7d\x7b/multiple\x7d replied to the topic \x27<a href=\"/forum/"
      ++ toString d.categoryId ++ "/" ++ toString d.threadId ++ "\">" ++ d.subject
      ++ "</a>\x27 in the forum."
  let previewText := strTake (jsTrim (stripBrackets d.message)) 300
  let readMoreUrl := "/forum/" ++ toString d.categoryId ++ "/" ++ toString d.threadId
    ++ "/" ++ toString messageId
  let imageTag := "<a href=\"" ++ d.imageURL ++ "\" rel=\"nofollow\" target=\"_blank\">"
    ++ d.imageURL ++ "</a><br><br>"
  let activityContent :=
    ("\n      <div class=\"bbcode_center\" style=\"text-align:center;\">\n        <b>"
      ++ d.subject ++ "</b>\n      </div>\n      <br>\n      " ++ imageTag
      ++ "\n      " ++ previewText
      ++ "\n      <br>\n      <br>\n      <a rel=\"nofollow\" href=\"" ++ readMoreUrl
      ++ "\" class=\"small profile-newsfeed-item-action\">Read More...</a>\n    ")
  { id := activityId, actor := d.userId, target := 0, title := activityTitle,
    content := jsTrim activityContent, app := "kunena.thread.reply",
    verb := "kunena.thread.reply", cid := d.threadId, created := env.now,
    access := 0, points := 1, archived := 0, comment_id := d.threadId,
    comment_type := "kunena.thread.reply", like_id := 0,
    like_type := "kunena.thread.reply", updated_at := env.now, params := "",
    location := "", latitude := 255, longitude := 255, actors := "" }

/-- The seven statements of the transaction, executed sequentially over a
buffered state; `none` is the thrown failure (statement fault or zero
affected rows) that triggers the rollback. Returns the buffered state and
the generated message id. -/
def insertTxn (env : Env) (d : WriterData) (db : DBState) : Option (DBState × Nat) :=
  -- statement 1: INSERT INTO jos_kunena_messages
  if env.wfault 0 then none else
  let messageId := db.nextMsgId
  let db1 : DBState := { db with
    messages := db.messages ++
      [{ id := messageId, parent := d.parentId, thread := d.threadId,
         catid := d.categoryId, subject := d.subject, userid := d.userId,
         name := d.name, time := env.now, ip := "162.158.210.219" }],
    nextMsgId := messageId + 1 }
  -- statement 2: INSERT INTO jos_kunena_messages_text
  if env.wfault 1 then none else
  let db2 : DBState := { db1 with
    texts := db1.texts ++ [{ mesid := messageId, message := d.message }] }
  -- statement 3: UPDATE jos_kunena_users SET posts = posts + 1
  if env.wfault 2 then none else
  if (db2.users.filter (fun u => u.userid == d.userId)).length = 0 then none else
  let db3 : DBState := { db2 with
    users := db2.users.map (fun u =>
      if u.userid == d.userId then { u with posts := u.posts + 1 } else u) }
  -- statement 4: UPDATE jos_kunena_topics (last-post metadata)
  if env.wfault 3 then none else
  if (db3.topics.filter (fun r => r.id == d.threadId)).length = 0 then none else
  let db4 : DBState := { db3 with
    topics := db3.topics.map (fun r =>
      if r.id == d.threadId then
        { r with last_post_id := messageId, last_post_time := env.now,
                 last_post_userid := d.userId, last_post_guest_name := d.name }
      else r) }
  -- statement 5: UPDATE jos_kunena_categories (last-post metadata)
  if env.wfault 4 then none else
  if (db4.cats.filter (fun r => r.id == d.categoryId)).length = 0 then none else
  let db5 : DBState := { db4 with
    cats := db4.cats.map (fun r =>
      if r.id == d.categoryId then
        { r with last_post_id := messageId, last_post_time := env.now }
      else r) }
  -- statement 6: INSERT INTO jos_community_activities
  if env.wfault 5 then none else
  let activityId := db5.nextActId
  let db6 : DBState := { db5 with
    acts := db5.acts ++ [activityRow env d messageId activityId],
    nextActId := activityId + 1 }
  -- statement 7: UPDATE jos_community_activities SET like_id = id
  if env.wfault 6 then none else
  if (db6.acts.filter (fun r => r.id == activityId)).length = 0 then none else
  let db7 : DBState := { db6 with
    acts := db6.acts.map (fun r =>
      if r.id == activityId then { r with like_id := activityId } else r) }
  some (db7, messageId)

/-- Model of `insertMessage`: begin, run the unit, commit and persist the
watermark (`setLastProcessedDate(data.created)` writes the formatted
creation instant) on success; on any failure roll back to the snapshot
(the whole state is unchanged). -/
def insertMessage (env : Env) (d : WriterData) (s : SysState) : SysState :=
  match insertTxn env d s.db with
  | none => s
  | some (db', mid) =>
    { db := db',
      watermark := env.fmtDate d.created,
      log := { s.log with
        wrote := s.log.wrote ++ [env.fmtDate d.created],
        posted := s.log.posted ++ [mid] } }

/-! ## The orchestrator (lines 640-797) -/

/-- Model of `const MAX_RECURSION = 100`. -/
def MAX_RECURSION : Nat := 100

/-- Model of `processPost(connection, created, depth)`.  The extra `gas` argument
is a structural-recursion fuel; the top-level entry supplies more gas
than the depth guard can consume, so the `0` case is never reached from
`runJob`.  Skip outcomes recurse with the fetched item's creation
instant (the code passes `formatDate(nextPost.created)`, which denotes
that instant) and `depth + 1`; a write attempt, successful or not, ends
the run. -/
def processAux (env : Env) : Nat → Nat → Nat → SysState → SysState
  | 0, _, _, s => s
  | gas + 1, depth, t, s =>
    if depth > MAX_RECURSION then s
    else
      match getNextPost env.contents t with
      | none => s
      | some post =>
        let s1 : SysState :=
          { s with log := { s.log with examined := s.log.examined ++ [post.id] } }
        let seg := codeSegment (env.parse post.fulltext)
        let fragText := match seg.head? with | none => "" | some n => textOfN n
        match forumLastMatch post.fulltext with
        | none => processAux env gas (depth + 1) post.created s1
        | some (cat, thr) =>
          match getSubjectAndParent s1.db cat thr with
          | none => processAux env gas (depth + 1) post.created s1
          | some sp =>
            let ftitle := finalTitleOf fragText post.title
            let mapped := seg.map (fun n => jsTrim (stripUpdTags (env.serial n)))
            let finalUpdates :=
              boundaryFilter (fun h => containsStr (textOfL (env.parse h)) "forum topic") mapped
            match getImage env post.id with
            | none => processAux env gas (depth + 1) post.created s1
            | some imageURL =>
              let finalPost := finalPostOf ftitle imageURL (composeBody env.conv finalUpdates)
              if hasBeenPostedM env s1.db finalPost then
                processAux env gas (depth + 1) post.created s1
              else
                insertMessage env
                  { parentId := sp.2, threadId := thr, categoryId := cat,
                    subject := sp.1, message := finalPost, userId := env.userId,
                    name := env.userName, created := post.created,
                    imageURL := imageURL } s1

/-- One run of the job from the watermark instant `t0`. -/
def runJob (env : Env) (t0 : Nat) (s : SysState) : SysState :=
  processAux env (MAX_RECURSION + 2) 0 t0 s

/-! ## Derived views used to state the claims -/

/-- The guard's join, projected to message texts: every text row that
belongs to a message of this user. -/
def userMsgs (db : DBState) (uid : Nat) : List String :=
  (db.texts.filter (fun t =>
    db.messages.any (fun m => m.id == t.mesid && m.userid == uid))).map
    (fun t => t.message)

/-- No two stored messages of this user have the same text. -/
def DupFree (db : DBState) (uid : Nat) : Prop :=
  (userMsgs db uid).Pairwise (· ≠ ·)

instance (db : DBState) (uid : Nat) : Decidable (DupFree db uid) := by
  unfold DupFree; infer_instance

/-- Auto-increment discipline: every stored message id and text key is
below the next generated id. -/
def FreshIds (db : DBState) : Prop :=
  (∀ m ∈ db.messages, m.id < db.nextMsgId) ∧ (∀ t ∈ db.texts, t.mesid < db.nextMsgId)

instance (db : DBState) : Decidable (FreshIds db) := by
  unfold FreshIds; infer_instance

/-! ## Concrete fixtures -/

/-- Empty database. -/
def dbEmpty : DBState :=
  { messages := [], texts := [], users := [], topics := [], cats := [],
    acts := [], nextMsgId := 1, nextActId := 1 }

/-- Empty run state. -/
def sEmpty : SysState :=
  { db := dbEmpty, watermark := "", log := { examined := [], wrote := [], posted := [] } }

/-- A backlog of 101 eligible items, none containing an embeddable
thread URL (all skip at the no-URL step). -/
def envSkips : Env :=
  { contents := (List.range 101).map
      (fun k => { id := k + 1, title := "T", fulltext := "forum topic", created := k + 1 }),
    media := [], parse := fun _ => [], serial := fun _ => "",
    conv := fun h => h, fmtDate := fun n => toString n,
    wfault := fun _ => false, gFault := false,
    userId := 9, userName := "U", now := 1234 }

/-- One fully processable item: body mentions `forum topic` and links
`forum/7/20`; matching topic, category, media and user rows exist. -/
def envOne : Env :=
  { contents := [{ id := 1, title := " T ", fulltext := "forum topic forum/7/20", created := 5 }],
    media := [{ listing_id := 1, main_media := 1, rel_path := "r/",
                filename := "f", file_extension := "jpg" }],
    parse := fun _ => [], serial := fun _ => "",
    conv := fun h => h, fmtDate := fun n => toString n,
    wfault := fun _ => false, gFault := false,
    userId := 9, userName := "U", now := 1234 }

/-- Database matching `envOne`: the target topic, its category, and the
poster's counter row. -/
def dbOne : DBState :=
  { messages := [], texts := [],
    users := [{ userid := 9, posts := 0 }],
    topics := [{ category_id := 7, id := 20, subject := "S", first_post_id := 3,
                 last_post_id := 0, last_post_time := 0, last_post_userid := 0,
                 last_post_guest_name := "" }],
    cats := [{ id := 7, last_post_id := 0, last_post_time := 0 }],
    acts := [], nextMsgId := 1, nextActId := 1 }

/-- Run state over `dbOne`. -/
def sOne : SysState :=
  { db := dbOne, watermark := "", log := { examined := [], wrote := [], posted := [] } }

/-- The post text `envOne`/`dbOne` composes (empty parsed body, so only
title line and image line). -/
def postOne : String :=
  "[center][b]T[/b][/center]\n\n[img]https://gameworld.gr/media/reviews/photos/r/f.jpg[/img]\n\n"

/-- Model of `envOne` with the Duplicate Guard's query faulting. -/
def envDup : Env := { envOne with gFault := true }

/-- Model of `dbOne` after the composed post was already stored once for user 9. -/
def dbDup : DBState :=
  { dbOne with
    messages := [{ id := 1, parent := 3, thread := 20, catid := 7, subject := "S",
                   userid := 9, name := "U", time := 1000, ip := "162.158.210.219" }],
    texts := [{ mesid := 1, message := postOne }],
    users := [{ userid := 9, posts := 1 }],
    nextMsgId := 2 }

/-- Run state over `dbDup`. -/
def sDup : SysState :=
  { db := dbDup, watermark := "5", log := { examined := [], wrote := [], posted := [] } }

/-- Writer input used for the `C1` witness. -/
def dOne : WriterData :=
  { parentId := 3, threadId := 20, categoryId := 7, subject := "S",
    message := postOne, userId := 9, name := "U", created := 5,
    imageURL := "https://gameworld.gr/media/reviews/photos/r/f.jpg" }

end GW

namespace GW

/-! # Claim theorems -/

/-- **C1.** If the Transactional Writer's step 3 (the user post-counter
update) fails — the statement faults, or it reports zero affected rows
because no `jos_kunena_users` row matches the poster — the whole unit is
rolled back: the message rows of step 1, the message-text rows of step 2
and every other table are as before, and neither the watermark file nor
the write history changes. -/
theorem claim_C1_rollback (env : Env) (d : WriterData) (s : SysState)
    (h : env.wfault 2 = true ∨
      (s.db.users.filter (fun u => u.userid == d.userId)).length = 0) :
    (insertMessage env d s).db.messages = s.db.messages ∧
    (insertMessage env d s).db.texts = s.db.texts ∧
    (insertMessage env d s).watermark = s.watermark ∧
    (insertMessage env d s).log.wrote = s.log.wrote := by
  have hnone : insertTxn env d s.db = none := by
    unfold insertTxn
    rcases h with h | h
    · cases hf0 : env.wfault 0 <;> cases hf1 : env.wfault 1 <;>
        simp [hf0, hf1, h]
    · cases hf0 : env.wfault 0 <;> cases hf1 : env.wfault 1 <;>
        cases hf2 : env.wfault 2 <;> simp [hf0, hf1, hf2, h]
  unfold insertMessage
  rw [hnone]
  exact ⟨rfl, rfl, rfl, rfl⟩

/-- Witness for `claim_C1_rollback`: a concrete writer call against a
database with no counter row for the poster. -/
theorem claim_C1_rollback_witness :
    ((envOne.wfault 2 = true ∨
      (sEmpty.db.users.filter (fun u => u.userid == dOne.userId)).length = 0) ∧
      ((insertMessage envOne dOne sEmpty).db.messages = sEmpty.db.messages ∧
        (insertMessage envOne dOne sEmpty).db.texts = sEmpty.db.texts ∧
        (insertMessage envOne dOne sEmpty).watermark = sEmpty.watermark ∧
        (insertMessage envOne dOne sEmpty).log.wrote = sEmpty.log.wrote)) :=
  ⟨Or.inr (by decide), claim_C1_rollback envOne dOne sEmpty (Or.inr (by decide))⟩

/-- **C3** (code bug).  On the body `<p>intro text here</p><p>[UPDATE] x</p>`
the unroll phase leaves the shared `UPDATE_REGEX`'s `lastIndex` at 8, so
the backward `findIndex` misses the marker of the last fragment and the
code keeps the *entire* unrolled list, although the last fragment does
match the pattern and the claimed (and spec-intended, pure-matching)
behaviour keeps only the suffix starting at that last matching
fragment. -/
theorem claim_C3_segment_divergence :
    (codeSegment
        [Node.el "p" [Node.tx "intro text here"], Node.el "p" [Node.tx "[UPDATE] x"]]).map
        textOfN = ["intro text here", "[UPDATE] x"] ∧
    (specSegment
        [Node.el "p" [Node.tx "intro text here"], Node.el "p" [Node.tx "[UPDATE] x"]]).map
        textOfN = ["[UPDATE] x"] ∧
    pureHasUpd (textOfN (Node.el "p" [Node.tx "[UPDATE] x"])) = true ∧
    (unrollL [Node.el "p" [Node.tx "intro text here"],
              Node.el "p" [Node.tx "[UPDATE] x"]] 0).2 = 8 := by
  refine ⟨by decide, by decide, by decide, by decide⟩

/-- **C4.** The resolved thread target is taken from the *last*
occurrence of `forum/<digits>/<digits>`: `matchAll` collects the
non-overlapping matches left to right and `.pop()` takes the last; on a
body containing `forum/5/10` then `forum/7/20` both are found and the
target resolves to category 7, thread 20. -/
theorem claim_C4_last_url :
    (∀ s, forumLastMatch s = (forumScan s).getLast?) ∧
    forumScan "See forum/5/10 and forum/7/20 now" = [(5, 10), (7, 20)] ∧
    forumLastMatch "See forum/5/10 and forum/7/20 now" = some (7, 20) :=
  ⟨fun _ => rfl, by decide, by decide⟩

/-- **C5** (counterexample).  The reverse title scan of
`[UPDATE: Foo Bar]` does *not* yield `Foo Bar`: the space after the
colon is accumulated before the scan stops at `:`. -/
theorem claim_C5_counterexample :
    titleCandidate "[UPDATE: Foo Bar]" ≠ "Foo Bar" := by decide

/-- **C5** (amended).  On the marker text `[UPDATE: Foo Bar]` (which is
exactly what the pattern matches on that fragment text) the procedure
yields `" Foo Bar"` — `Foo Bar` with the leading space after the colon
preserved. -/
theorem claim_C5_title :
    firstUpdMatchStr "[UPDATE: Foo Bar]" = some "[UPDATE: Foo Bar]" ∧
    titleCandidate "[UPDATE: Foo Bar]" = " Foo Bar" := by
  refine ⟨by decide, by decide⟩

/-- **C6** (counterexample).  On `[UPDATE]` the scan does not stop until
the opening `[`, so it accumulates the letters `ETADPU`; the extracted
title is `"UPDATE"`, which is non-empty, and therefore the composed
title is `"UPDATE"` rather than the item's own title. -/
theorem claim_C6_counterexample :
    titleCandidate "[UPDATE]" = "UPDATE" ∧
    titleCandidate "[UPDATE]" ≠ "" ∧
    finalTitleOf "[UPDATE]" "My Item" = "UPDATE" := by
  refine ⟨by decide, by decide, by decide⟩

/-- **C6** (amended).  For the colon-less marker `[UPDATE]` the
extraction yields the non-empty title `"UPDATE"` (the scan skips `]`,
accumulates the letters, and stops at `[`), so the fallback to the
item's own title never happens for this marker, whatever that item
title is. -/
theorem claim_C6_no_colon :
    titleCandidate "[UPDATE]" = "UPDATE" ∧
    ∀ t : String, finalTitleOf "[UPDATE]" t = "UPDATE" :=
  ⟨by decide, fun _ => rfl⟩

/-- **C10.** When the Duplicate Guard's query faults, `queryDatabase`
returns no result set and `hasBeenPosted` decodes that exactly like an
empty match: it reports `false`, and the pipeline proceeds to insert —
concretely, a faulting-guard run against a database that already stores
the identical composed post for the poster inserts it a second time. -/
theorem claim_C10_guard_fault (env : Env) (db : DBState) (msg : String)
    (h : env.gFault = true) :
    hasBeenPostedM env db msg = false ∧
    hasBeenPostedM env db msg = hasBeenPostedRes (some []) ∧
    userMsgs (runJob envDup 0 sDup).db 9 = [postOne, postOne] := by
  refine ⟨?_, ?_, by decide⟩
  · unfold hasBeenPostedM guardRows
    rw [h]
    rfl
  · unfold hasBeenPostedM guardRows
    rw [h]
    rfl

/-- Witness for `claim_C10_guard_fault` at a concrete faulting guard. -/
theorem claim_C10_guard_fault_witness :
    (envDup.gFault = true ∧
      (hasBeenPostedM envDup dbDup postOne = false ∧
        hasBeenPostedM envDup dbDup postOne = hasBeenPostedRes (some []) ∧
        userMsgs (runJob envDup 0 sDup).db 9 = [postOne, postOne])) :=
  ⟨rfl, claim_C10_guard_fault envDup dbDup postOne rfl⟩

/-- Unfolding `bfAux` on nil. -/
lemma bfAux_nil (p : String → Bool) (n i : Nat) (flag : Bool) :
    bfAux p n i flag [] = [] := rfl

/-- Unfolding `bfAux` on cons with the flag set. -/
lemma bfAux_cons_true (p : String → Bool) (n i : Nat) (a : String) (rest : List String) :
    bfAux p n i true (a :: rest) = bfAux p n (i + 1) true rest := rfl

/-- Unfolding `bfAux` on cons with the flag clear. -/
lemma bfAux_cons_false (p : String → Bool) (n i : Nat) (a : String) (rest : List String) :
    bfAux p n i false (a :: rest) =
      if i + 1 = n ∨ i + 2 = n then
        (if p a then [] else [a]) ++ bfAux p n (i + 1) true rest
      else a :: bfAux p n (i + 1) false rest := rfl

/-- Once the boundary flag is set, every remaining fragment is dropped. -/
lemma bfAux_flag_true (p : String → Bool) (n : Nat) :
    ∀ (l : List String) (i : Nat), bfAux p n i true l = [] := by
  intro l
  induction l with
  | nil => intro i; rfl
  | cons a rest ih => intro i; rw [bfAux_cons_true, ih]

/-- Closed form of the boundary filter when the index invariant holds:
everything strictly before the second-to-last position is kept, the
second-to-last (or only) fragment is kept exactly when the phrase check
fails on it, and the rest is dropped. -/
lemma bfAux_closed (p : String → Bool) :
    ∀ (l : List String) (n i : Nat), n = i + l.length →
      bfAux p n i false l =
        l.take (l.length - 2) ++
          ((l.drop (l.length - 2)).take 1).filter (fun a => !p a) := by
  intro l
  induction l with
  | nil => intro n i h; rfl
  | cons a l' ih =>
    intro n i h
    rcases l' with - | ⟨b, l''⟩
    · have hn : n = i + 1 := by simpa using h
      rw [bfAux_cons_false, if_pos (by omega : i + 1 = n ∨ i + 2 = n), bfAux_nil]
      cases hpa : p a <;> simp [hpa]
    · rcases l'' with - | ⟨c, tl⟩
      · have hn : n = i + 2 := by simpa using h
        rw [bfAux_cons_false, if_pos (by omega : i + 1 = n ∨ i + 2 = n),
          bfAux_cons_true, bfAux_nil]
        cases hpa : p a <;> simp [hpa]
      · have hn : n = i + tl.length + 3 := by simp at h; omega
        rw [bfAux_cons_false, if_neg (by omega : ¬(i + 1 = n ∨ i + 2 = n)),
          ih n (i + 1) (by simp; omega)]
        simp only [List.length_cons]
        rw [show (tl.length + 1 + 1 + 1 - 2) = (tl.length + 1 + 1 - 2) + 1 by omega]
        simp [List.take_succ_cons, List.drop_succ_cons]

/-- **C9.** The forum-topic boundary filter in closed form, for every
phrase check `p` and candidate list: the check happens at the first of
the last two positions (the second-to-last when the list has at least
two fragments, the only fragment otherwise); if the phrase is found
there that fragment and everything after it are excluded; once the flag
is set no later fragment is included regardless of content (so the last
fragment of a list of length ≥ 2 is always dropped), and at most that
one checked fragment is ever discarded *as the boundary*. -/
theorem claim_C9_boundary_filter (p : String → Bool) (l : List String) :
    boundaryFilter p l =
      l.take (l.length - 2) ++
        ((l.drop (l.length - 2)).take 1).filter (fun a => !p a) :=
  bfAux_closed p l l.length 0 (by omega)

/-! ## Run lemmas -/

/-- Whatever `pickMin` folds to was either the accumulator or a list
member. -/
lemma pickMin_foldl {P : ContentItem → Prop} :
    ∀ (l : List ContentItem) (acc : Option ContentItem),
      (∀ q, acc = some q → P q) → (∀ q ∈ l, P q) →
      ∀ p, l.foldl pickMin acc = some p → P p := by
  intro l
  induction l with
  | nil => intro acc hacc _ p hp; exact hacc p hp
  | cons x xs ih =>
    intro acc hacc hl p hp
    refine ih (pickMin acc x) ?_ (fun q hq => hl q (List.mem_cons_of_mem _ hq)) p hp
    intro q hq
    cases acc with
    | none =>
      simp only [pickMin] at hq
      cases hq
      exact hl x (List.mem_cons_self _ _)
    | some r =>
      simp only [pickMin] at hq
      by_cases hc : x.created < r.created
      · rw [if_pos hc] at hq
        cases hq
        exact hl x (List.mem_cons_self _ _)
      · rw [if_neg hc] at hq
        cases hq
        exact hacc _ rfl

/-- The fetched row is a content row strictly after the watermark. -/
lemma getNextPost_spec (contents : List ContentItem) (t : Nat) (p : ContentItem)
    (h : getNextPost contents t = some p) : p ∈ contents ∧ t < p.created := by
  unfold getNextPost at h
  refine pickMin_foldl (P := fun q => q ∈ contents ∧ t < q.created) _ none
    (fun q hq => by cases hq) ?_ p h
  intro q hq
  rw [List.mem_filter] at hq
  refine ⟨hq.1, ?_⟩
  have h2 := hq.2
  simp only [Bool.and_eq_true, decide_eq_true_eq] at h2
  exact h2.1

/-- When no content row carries an embeddable thread URL, the run only
skips: database, watermark writes and posts are untouched and at most
`MAX_RECURSION + 1 - depth` further rows are examined. -/
lemma processAux_skip_all (env : Env)
    (hnone : ∀ p ∈ env.contents, forumLastMatch p.fulltext = none) :
    ∀ (gas depth t : Nat) (s : SysState),
      (processAux env gas depth t s).log.wrote = s.log.wrote ∧
      (processAux env gas depth t s).log.posted = s.log.posted ∧
      (processAux env gas depth t s).db = s.db ∧
      (processAux env gas depth t s).log.examined.length ≤
        s.log.examined.length + (MAX_RECURSION + 1 - depth) := by
  intro gas
  induction gas with
  | zero => intro depth t s; exact ⟨rfl, rfl, rfl, Nat.le_add_right _ _⟩
  | succ gas ih =>
    intro depth t s
    simp only [processAux]
    by_cases hd : depth > MAX_RECURSION
    · rw [if_pos hd]; exact ⟨rfl, rfl, rfl, Nat.le_add_right _ _⟩
    · rw [if_neg hd]
      cases hfetch : getNextPost env.contents t with
      | none => exact ⟨rfl, rfl, rfl, Nat.le_add_right _ _⟩
      | some post =>
        obtain ⟨hmem, -⟩ := getNextPost_spec env.contents t post hfetch
        dsimp only
        rw [hnone post hmem]
        dsimp only
        obtain ⟨h1, h2, h3, h4⟩ := ih (depth + 1) post.created
          { s with log := { s.log with examined := s.log.examined ++ [post.id] } }
        refine ⟨h1, h2, h3, ?_⟩
        simp only [List.length_append, List.length_cons, List.length_nil] at h4
        unfold MAX_RECURSION at hd h4 ⊢
        omega

end GW

namespace GW

set_option maxRecDepth 10000 in
/-- **C7** (counterexample).  A backlog of 101 consecutive skip-eligible
items (more than 100, none with a thread URL): the run examines an item
at depth 100 too — 101 items in all — so it does *not* stop on reaching
depth 100 (that would leave at most 100 items examined); the guard only
fires when the depth exceeds 100. -/
theorem claim_C7_counterexample :
    (runJob envSkips 0 sEmpty).log.examined.length = 101 ∧
    ¬((runJob envSkips 0 sEmpty).log.examined.length ≤ 100) := by
  constructor
  · decide
  · decide

/-- **C7** (amended).  Over any backlog in which no item carries an
embeddable thread URL, the run terminates without posting and without
persisting any watermark change, examining at most 101 items (the depth
guard `depth > MAX_RECURSION` fires at depth 101, after the item at
depth 100 has been processed). -/
theorem claim_C7_depth_guard (env : Env) (t0 : Nat) (s : SysState)
    (hnone : ∀ p ∈ env.contents, forumLastMatch p.fulltext = none)
    (hex : s.log.examined = []) :
    (runJob env t0 s).log.wrote = s.log.wrote ∧
    (runJob env t0 s).log.posted = s.log.posted ∧
    (runJob env t0 s).db = s.db ∧
    (runJob env t0 s).log.examined.length ≤ 101 := by
  obtain ⟨h1, h2, h3, h4⟩ := processAux_skip_all env hnone (MAX_RECURSION + 2) 0 t0 s
  refine ⟨h1, h2, h3, ?_⟩
  rw [hex] at h4
  unfold MAX_RECURSION at h4
  simpa using h4

/-- Witness for `claim_C7_depth_guard` on the concrete 101-item
backlog. -/
theorem claim_C7_depth_guard_witness :
    ((∀ p ∈ envSkips.contents, forumLastMatch p.fulltext = none) ∧
      sEmpty.log.examined = [] ∧
      ((runJob envSkips 0 sEmpty).log.wrote = sEmpty.log.wrote ∧
        (runJob envSkips 0 sEmpty).log.posted = sEmpty.log.posted ∧
        (runJob envSkips 0 sEmpty).db = sEmpty.db ∧
        (runJob envSkips 0 sEmpty).log.examined.length ≤ 101)) :=
  ⟨by decide, rfl, claim_C7_depth_guard envSkips 0 sEmpty (by decide) rfl⟩

/-- The writer either leaves the write history and post history exactly
as they were (rollback) or appends exactly one watermark write — the
formatted creation instant — and one posted id (commit). -/
lemma insertMessage_log (env : Env) (d : WriterData) (s : SysState) :
    ((insertMessage env d s).log.wrote = s.log.wrote ∧
      (insertMessage env d s).log.posted = s.log.posted) ∨
    ((insertMessage env d s).log.wrote = s.log.wrote ++ [env.fmtDate d.created] ∧
      (insertMessage env d s).log.posted.length = s.log.posted.length + 1) := by
  unfold insertMessage
  cases insertTxn env d s.db with
  | none => exact Or.inl ⟨rfl, rfl⟩
  | some pr =>
    obtain ⟨db', mid⟩ := pr
    exact Or.inr ⟨rfl, by simp⟩

/-- Watermark dichotomy for the whole recursion: either the write and
post histories are untouched, or exactly one watermark value was
written — the formatted creation instant of a fetched content row that
lies strictly after the recursion's current watermark — together with
exactly one committed post. -/
lemma processAux_wm (env : Env) :
    ∀ (gas depth t : Nat) (s : SysState),
      ((processAux env gas depth t s).log.wrote = s.log.wrote ∧
        (processAux env gas depth t s).log.posted = s.log.posted) ∨
      ∃ c, (processAux env gas depth t s).log.wrote = s.log.wrote ++ [env.fmtDate c] ∧
        t < c ∧ (∃ p ∈ env.contents, p.created = c) ∧
        (processAux env gas depth t s).log.posted.length = s.log.posted.length + 1 := by
  intro gas
  induction gas with
  | zero => intro depth t s; exact Or.inl ⟨rfl, rfl⟩
  | succ gas ih =>
    intro depth t s
    simp only [processAux]
    by_cases hd : depth > MAX_RECURSION
    · rw [if_pos hd]; exact Or.inl ⟨rfl, rfl⟩
    · rw [if_neg hd]
      cases hfetch : getNextPost env.contents t with
      | none => exact Or.inl ⟨rfl, rfl⟩
      | some post =>
        obtain ⟨hmem, hlt⟩ := getNextPost_spec env.contents t post hfetch
        dsimp only
        have hstep :
            (((processAux env gas (depth + 1) post.created
              { s with log := { s.log with
                  examined := s.log.examined ++ [post.id] } }).log.wrote = s.log.wrote ∧
              (processAux env gas (depth + 1) post.created
              { s with log := { s.log with
                  examined := s.log.examined ++ [post.id] } }).log.posted = s.log.posted) ∨
            ∃ c, (processAux env gas (depth + 1) post.created
              { s with log := { s.log with
                  examined := s.log.examined ++ [post.id] } }).log.wrote =
                s.log.wrote ++ [env.fmtDate c] ∧
              t < c ∧ (∃ p ∈ env.contents, p.created = c) ∧
              (processAux env gas (depth + 1) post.created
              { s with log := { s.log with
                  examined := s.log.examined ++ [post.id] } }).log.posted.length =
                s.log.posted.length + 1) := by
          refine (ih (depth + 1) post.created _).imp (fun h => ⟨h.1, h.2⟩) ?_
          rintro ⟨c, hw, hc, hcm, hp⟩
          exact ⟨c, hw, lt_trans hlt hc, hcm, hp⟩
        cases hurl : forumLastMatch post.fulltext with
        | none => exact hstep
        | some pr =>
          obtain ⟨cat, thr⟩ := pr
          dsimp only
          cases hsub : getSubjectAndParent s.db cat thr with
          | none => exact hstep
          | some sp =>
            dsimp only
            cases him : getImage env post.id with
            | none => exact hstep
            | some imageURL =>
              dsimp only
              by_cases hbp : hasBeenPostedM env s.db
                  (finalPostOf
                    (finalTitleOf
                      (match (codeSegment (env.parse post.fulltext)).head? with
                        | none => ""
                        | some n => textOfN n)
                      post.title)
                    imageURL
                    (composeBody env.conv
                      (boundaryFilter
                        (fun h => containsStr (textOfL (env.parse h)) "forum topic")
                        ((codeSegment (env.parse post.fulltext)).map
                          (fun n => jsTrim (stripUpdTags (env.serial n))))))) = true
              · rw [if_pos hbp]; exact hstep
              · rw [if_neg hbp]
                refine (insertMessage_log env _ _).imp (fun h => ⟨h.1, h.2⟩) ?_
                rintro ⟨h1, h2⟩
                exact ⟨post.created, h1, hlt, ⟨post, hmem, rfl⟩, h2⟩

end GW

namespace GW

/-- **C8.** The persisted watermark is written at most once per run, and
only by the commit branch of the Transactional Writer: a run either
leaves the watermark file untouched, or writes exactly one value — the
creation instant of the processed content row passed through
`formatDate` (Europe/Athens `yyyy-MM-dd HH:mm:ss`) — where that instant
lies strictly after the watermark the run started from, and exactly one
post was committed. -/
theorem claim_C8_watermark (env : Env) (t0 : Nat) (s : SysState)
    (hw : s.log.wrote = []) (hp : s.log.posted = []) :
    (runJob env t0 s).log.wrote = [] ∨
    ∃ c, (runJob env t0 s).log.wrote = [env.fmtDate c] ∧ t0 < c ∧
      (∃ p ∈ env.contents, p.created = c) ∧
      (runJob env t0 s).log.posted.length = 1 := by
  rcases processAux_wm env (MAX_RECURSION + 2) 0 t0 s with ⟨h1, -⟩ | ⟨c, h1, h2, h3, h4⟩
  · exact Or.inl (by rw [runJob, h1, hw])
  · refine Or.inr ⟨c, ?_, h2, h3, ?_⟩
    · rw [runJob, h1, hw]; rfl
    · rw [runJob, h4, hp]; rfl

/-- Witness for `claim_C8_watermark`: the one-item environment commits
one post and writes the single watermark value `"5"` (the item's
creation instant, formatted), strictly after the starting watermark
`0`. -/
theorem claim_C8_watermark_witness :
    (sOne.log.wrote = [] ∧ sOne.log.posted = [] ∧
      ((runJob envOne 0 sOne).log.wrote = [] ∨
        ∃ c, (runJob envOne 0 sOne).log.wrote = [envOne.fmtDate c] ∧ 0 < c ∧
          (∃ p ∈ envOne.contents, p.created = c) ∧
          (runJob envOne 0 sOne).log.posted.length = 1)) :=
  ⟨rfl, rfl, claim_C8_watermark envOne 0 sOne rfl rfl⟩

/-- Shape of a committed transaction: exactly one message row (with the
generated id and the poster's identity) and one text row (keyed by that
id, holding the composed message) are appended, and the id counter
advances. -/
lemma insertTxn_some (env : Env) (d : WriterData) (db db' : DBState) (mid : Nat)
    (h : insertTxn env d db = some (db', mid)) :
    db'.messages = db.messages ++
      [{ id := db.nextMsgId, parent := d.parentId, thread := d.threadId,
         catid := d.categoryId, subject := d.subject, userid := d.userId,
         name := d.name, time := env.now, ip := "162.158.210.219" }] ∧
    db'.texts = db.texts ++ [{ mesid := db.nextMsgId, message := d.message }] ∧
    db'.nextMsgId = db.nextMsgId + 1 ∧
    mid = db.nextMsgId := by
  unfold insertTxn at h
  dsimp only at h
  by_cases h0 : env.wfault 0 = true
  · rw [if_pos h0] at h; exact Option.noConfusion h
  rw [if_neg h0] at h
  by_cases h1 : env.wfault 1 = true
  · rw [if_pos h1] at h; exact Option.noConfusion h
  rw [if_neg h1] at h
  by_cases h2 : env.wfault 2 = true
  · rw [if_pos h2] at h; exact Option.noConfusion h
  rw [if_neg h2] at h
  by_cases h3 : (List.filter (fun u => u.userid == d.userId) db.users).length = 0
  · rw [if_pos h3] at h; exact Option.noConfusion h
  rw [if_neg h3] at h
  by_cases h4 : env.wfault 3 = true
  · rw [if_pos h4] at h; exact Option.noConfusion h
  rw [if_neg h4] at h
  by_cases h5 : (List.filter (fun r => r.id == d.threadId) db.topics).length = 0
  · rw [if_pos h5] at h; exact Option.noConfusion h
  rw [if_neg h5] at h
  by_cases h6 : env.wfault 4 = true
  · rw [if_pos h6] at h; exact Option.noConfusion h
  rw [if_neg h6] at h
  by_cases h7 : (List.filter (fun r => r.id == d.categoryId) db.cats).length = 0
  · rw [if_pos h7] at h; exact Option.noConfusion h
  rw [if_neg h7] at h
  by_cases h8 : env.wfault 5 = true
  · rw [if_pos h8] at h; exact Option.noConfusion h
  rw [if_neg h8] at h
  by_cases h9 : env.wfault 6 = true
  · rw [if_pos h9] at h; exact Option.noConfusion h
  rw [if_neg h9] at h
  by_cases h10 : (List.filter (fun r => r.id == db.nextActId)
      (db.acts ++ [activityRow env d db.nextMsgId db.nextActId])).length = 0
  · rw [if_pos h10] at h; exact Option.noConfusion h
  rw [if_neg h10] at h
  simp only [Option.some.injEq, Prod.mk.injEq] at h
  obtain ⟨h1, h2⟩ := h
  subst h1
  subst h2
  exact ⟨rfl, rfl, rfl, rfl⟩

/-- A `false` guard verdict (with a working guard query) means the
composed message is not among the poster's stored messages. -/
lemma not_posted_notMem (env : Env) (db : DBState) (msg : String)
    (hg : env.gFault = false) (h : hasBeenPostedM env db msg = false) :
    msg ∉ userMsgs db env.userId := by
  intro hmem
  unfold hasBeenPostedM guardRows at h
  rw [hg] at h
  obtain ⟨trow, htf, hteq⟩ := List.mem_map.mp hmem
  obtain ⟨htx, hjoin⟩ := List.mem_filter.mp htf
  have htin : trow ∈ db.texts.filter (fun t =>
      db.messages.any (fun m => m.id == t.mesid && m.userid == env.userId)
        && t.message == msg) := by
    refine List.mem_filter.mpr ⟨htx, ?_⟩
    rw [Bool.and_eq_true, beq_iff_eq]
    exact ⟨hjoin, hteq⟩
  cases hfl : db.texts.filter (fun t =>
      db.messages.any (fun m => m.id == t.mesid && m.userid == env.userId)
        && t.message == msg) with
  | nil => rw [hfl] at htin; exact List.not_mem_nil trow htin
  | cons a l' =>
    rw [if_neg (by simp [hg])] at h
    rw [hfl] at h
    simp [hasBeenPostedRes] at h

/-- Appending one fresh message row and its text row extends the
poster's stored messages by exactly that text (fresh ids keep the join
over the old rows stable). -/
lemma userMsgs_snoc (db db₂ : DBState) (uid : Nat) (mrow : MsgRow) (trow : TextRow)
    (hm : db₂.messages = db.messages ++ [mrow]) (ht : db₂.texts = db.texts ++ [trow])
    (hft : ∀ t ∈ db.texts, t.mesid < db.nextMsgId)
    (hid : mrow.id = db.nextMsgId) (htid : trow.mesid = db.nextMsgId)
    (huid : mrow.userid = uid) :
    userMsgs db₂ uid = userMsgs db uid ++ [trow.message] := by
  unfold userMsgs
  rw [hm, ht, List.filter_append, List.map_append]
  congr 1
  · apply congrArg
    apply List.filter_congr
    intro t htmem
    rw [List.any_append]
    have hfalse : (mrow.id == t.mesid) = false :=
      beq_eq_false_iff_ne.mpr (by rw [hid]; exact Nat.ne_of_gt (hft t htmem))
    simp [hfalse]
  · have hpred : ((db.messages.any fun m => m.id == trow.mesid && m.userid == uid)
        || (mrow.id == trow.mesid && mrow.userid == uid)) = true := by
      refine Bool.or_eq_true_iff.mpr (Or.inr ?_)
      simp [hid, htid, huid]
    simp [List.filter_cons, List.filter_nil, hpred]

/-- Committing the writer appends exactly the composed message to the
poster's stored messages and preserves the id discipline. -/
lemma userMsgs_commit (env : Env) (d : WriterData) (db db' : DBState) (uid mid : Nat)
    (hf : FreshIds db) (hu : d.userId = uid)
    (h : insertTxn env d db = some (db', mid)) :
    userMsgs db' uid = userMsgs db uid ++ [d.message] ∧ FreshIds db' := by
  obtain ⟨hm, ht, hn, -⟩ := insertTxn_some env d db db' mid h
  obtain ⟨hfm, hft⟩ := hf
  constructor
  · exact userMsgs_snoc db db' uid _ _ hm ht hft rfl rfl hu
  · constructor
    · intro m hmm
      rw [hm] at hmm
      rw [hn]
      rcases List.mem_append.mp hmm with hmo | hmn
      · exact Nat.lt_succ_of_lt (hfm m hmo)
      · rw [List.mem_singleton] at hmn
        subst hmn
        exact Nat.lt_succ_self _
    · intro t htm
      rw [ht] at htm
      rw [hn]
      rcases List.mem_append.mp htm with hto | htn
      · exact Nat.lt_succ_of_lt (hft t hto)
      · rw [List.mem_singleton] at htn
        subst htn
        exact Nat.lt_succ_self _

/-- One writer call preserves the duplicate-freedom invariant when the
guard (with a working query) reported the message as not yet posted. -/
lemma insertMessage_dedup (env : Env) (d : WriterData) (s : SysState)
    (hu : d.userId = env.userId) (hg : env.gFault = false)
    (hf : FreshIds s.db) (hd : DupFree s.db env.userId)
    (hnp : hasBeenPostedM env s.db d.message = false) :
    FreshIds (insertMessage env d s).db ∧
      DupFree (insertMessage env d s).db env.userId := by
  unfold insertMessage
  cases hins : insertTxn env d s.db with
  | none => exact ⟨hf, hd⟩
  | some pr =>
    obtain ⟨db', mid⟩ := pr
    obtain ⟨hum, hfr⟩ := userMsgs_commit env d s.db db' env.userId mid hf hu hins
    refine ⟨hfr, ?_⟩
    unfold DupFree
    dsimp only
    rw [hum, List.pairwise_append]
    refine ⟨hd, List.pairwise_singleton _ _, ?_⟩
    intro a ha b hb
    rw [List.mem_singleton] at hb
    subst hb
    intro heq
    exact not_posted_notMem env s.db d.message hg hnp (heq ▸ ha)

/-- The whole recursion preserves duplicate-freedom of the poster's
stored messages, as long as the guard's query is not faulting: every
insert is preceded by the guard check on exactly the inserted text. -/
lemma processAux_dedup (env : Env) (hg : env.gFault = false) :
    ∀ (gas depth t : Nat) (s : SysState),
      FreshIds s.db → DupFree s.db env.userId →
      FreshIds (processAux env gas depth t s).db ∧
        DupFree (processAux env gas depth t s).db env.userId := by
  intro gas
  induction gas with
  | zero => intro depth t s hf hd; exact ⟨hf, hd⟩
  | succ gas ih =>
    intro depth t s hf hd
    simp only [processAux]
    by_cases hdep : depth > MAX_RECURSION
    · rw [if_pos hdep]; exact ⟨hf, hd⟩
    · rw [if_neg hdep]
      cases hfetch : getNextPost env.contents t with
      | none => exact ⟨hf, hd⟩
      | some post =>
        dsimp only
        have hstep := ih (depth + 1) post.created
          { s with log := { s.log with examined := s.log.examined ++ [post.id] } } hf hd
        cases hurl : forumLastMatch post.fulltext with
        | none => exact hstep
        | some pr =>
          obtain ⟨cat, thr⟩ := pr
          dsimp only
          cases hsub : getSubjectAndParent s.db cat thr with
          | none => exact hstep
          | some sp =>
            dsimp only
            cases him : getImage env post.id with
            | none => exact hstep
            | some imageURL =>
              dsimp only
              by_cases hbp : hasBeenPostedM env s.db
                  (finalPostOf
                    (finalTitleOf
                      (match (codeSegment (env.parse post.fulltext)).head? with
                        | none => ""
                        | some n => textOfN n)
                      post.title)
                    imageURL
                    (composeBody env.conv
                      (boundaryFilter
                        (fun h => containsStr (textOfL (env.parse h)) "forum topic")
                        ((codeSegment (env.parse post.fulltext)).map
                          (fun n => jsTrim (stripUpdTags (env.serial n))))))) = true
              · rw [if_pos hbp]; exact hstep
              · rw [if_neg hbp]
                exact insertMessage_dedup env _ _ rfl hg hf hd
                  (Bool.eq_false_iff.mpr hbp)

/-- **C2.** The Duplicate Guard checks (before every insert, on exactly
the composed text and the poster's identity) whether that text is
already stored, and the pipeline skips instead of inserting when it is;
consequently a run with a working guard query never produces two
identical stored message bodies for the poster: duplicate-freedom of the
poster's stored messages is preserved by the whole run. -/
theorem claim_C2_duplicate_guard (env : Env) (t0 : Nat) (s : SysState)
    (hg : env.gFault = false) (hf : FreshIds s.db) (hd : DupFree s.db env.userId) :
    DupFree (runJob env t0 s).db env.userId :=
  (processAux_dedup env hg (MAX_RECURSION + 2) 0 t0 s hf hd).2

/-- Witness for `claim_C2_duplicate_guard`: the one-item run, starting
from an empty message store, commits one post and stays
duplicate-free. -/
theorem claim_C2_duplicate_guard_witness :
    (envOne.gFault = false ∧ FreshIds sOne.db ∧ DupFree sOne.db envOne.userId ∧
      DupFree (runJob envOne 0 sOne).db envOne.userId) :=
  ⟨rfl, by decide, by decide,
    claim_C2_duplicate_guard envOne 0 sOne rfl (by decide) (by decide)⟩

end GW
